import Mathlib

/-!
Verification of the cc-tracker prompt-tracking core: a shallow embedding of
the record store (SQLite tables as Lean lists), the filter DSL parser, the
filter-to-SQL translator, the versioning subsystem, the migration manager
and the TTL cache, with theorems settling the frozen claims.

Modelling conventions, used throughout:
* SQLite tables are lists of row structures in insertion (rowid) order.
* `AUTOINCREMENT` / rowid allocation is an explicit counter in the state.
* TEXT timestamps: the code stores `to_rfc3339` strings and parses them
  back; no claim compares timestamps, so `DateTimeUtc` values are carried
  directly in rows and the serialize/parse round trip is the identity.
  `ORDER BY` on such a TEXT column is chronological for this fixed format,
  modelled by the lexicographic order on the date-time fields.
* Rust `f64` score values are carried as `Rat`: every claim only parses
  and stores them (decimal inputs such as `80` parse exactly); no floating
  arithmetic is performed.
* Fallible operations return `Except PromptTrackingError`.
-/

/-- Join a list of strings with a separator, as Rust `Vec::join`. -/
def sepBy (sep : String) : List String → String
  | [] => ""
  | [x] => x
  | x :: xs => x ++ sep ++ sepBy sep xs

/-- Insert into a `le`-sorted list (helper for the ORDER BY model). -/
def insertSorted (le : α → α → Bool) (a : α) : List α → List α
  | [] => [a]
  | b :: bs => if le a b then a :: b :: bs else b :: insertSorted le a bs

/-- Insertion sort by a boolean comparator; models SQL `ORDER BY`. -/
def sortByB (le : α → α → Bool) : List α → List α
  | [] => []
  | a :: as => insertSorted le a (sortByB le as)

/-- Value of a digit string, most significant first. -/
def digitsToNat (ds : List Char) : Nat :=
  ds.foldl (fun a c => a * 10 + (c.toNat - '0'.toNat)) 0

/-- Timestamp in UTC. The Rust code uses `chrono::DateTime<Utc>`; claims
never compare timestamps, so the model keeps the calendar fields. -/
structure DateTimeUtc where
  year : Int
  month : Nat
  day : Nat
  hour : Nat
  minute : Nat
  second : Nat
deriving DecidableEq, Repr

/-- Chronological `≤` on timestamps (lexicographic on the fields); equals
the TEXT ordering SQLite applies to the stored rfc3339 strings. -/
def dtLeB (a b : DateTimeUtc) : Bool :=
  if a.year ≠ b.year then a.year < b.year
  else if a.month ≠ b.month then a.month < b.month
  else if a.day ≠ b.day then a.day < b.day
  else if a.hour ≠ b.hour then a.hour < b.hour
  else if a.minute ≠ b.minute then a.minute < b.minute
  else a.second ≤ b.second

/-- Zero-pad a number to `w` digits (for the rfc3339 rendering). -/
def padNum (w : Nat) (n : Nat) : String :=
  let s := toString n
  if s.length < w then String.mk (List.replicate (w - s.length) '0') ++ s else s

/-- Rendering of `chrono` `to_rfc3339` for a whole-second UTC timestamp (model for
nonnegative years; every timestamp a claim touches is modern). -/
def toRfc3339 (d : DateTimeUtc) : String :=
  padNum 4 d.year.toNat ++ "-" ++ padNum 2 d.month ++ "-" ++ padNum 2 d.day ++ "T" ++
    padNum 2 d.hour ++ ":" ++ padNum 2 d.minute ++ ":" ++ padNum 2 d.second ++ "+00:00"

/-- Embeds `PromptStatus` from `models/mod.rs`. -/
inductive PromptStatus where
  | Active
  | Archived
  | Deprecated
deriving DecidableEq, Repr

/-- Embeds `PromptMetadata` from `models/mod.rs`. Token counts are `u32`, the
execution time is `u64`, the estimated cost an `f64` (carried as `Rat`). -/
structure PromptMetadata where
  model : String
  input_tokens : Option Nat
  output_tokens : Option Nat
  execution_time_ms : Option Nat
  estimated_cost : Option Rat
  context : Option String
deriving DecidableEq, Repr

/-- Embeds `Prompt` from `models/mod.rs`. -/
structure Prompt where
  id : String
  content : String
  content_hash : String
  category : Option String
  tags : List String
  status : PromptStatus
  created_at : DateTimeUtc
  updated_at : DateTimeUtc
  metadata : PromptMetadata
deriving DecidableEq, Repr

/-- Embeds `QualityScore` from `models/mod.rs`. -/
structure QualityScore where
  prompt_id : String
  total_score : Rat
  clarity : Rat
  completeness : Rat
  specificity : Rat
  guidance : Rat
  analyzed_at : DateTimeUtc
deriving DecidableEq, Repr

/-- Embeds `EfficiencyMetrics` from `models/mod.rs`. -/
structure EfficiencyMetrics where
  prompt_id : String
  efficiency_score : Rat
  token_efficiency : Rat
  time_efficiency : Rat
  cost_efficiency : Rat
  calculated_at : DateTimeUtc
deriving DecidableEq, Repr

/-- The error enum from `lib.rs` (the variants the embedded operations can
surface; message strings mirror the `format!` wrappers). -/
inductive PromptTrackingError where
  | DatabaseError (msg : String)
  | ConfigError (msg : String)
  | IoError (msg : String)
  | VersionNotFound (prompt_id : String) (version : Int)
deriving DecidableEq, Repr

/-- Embeds `PromptFilter` from `database/mod.rs`. The `status` field is written by
the filter module (`filter/mod.rs` assigns `filter.status`); it is carried
here and never consulted by `list_prompts`, exactly as in the source. -/
structure PromptFilter where
  category : Option String := none
  tags : List String := []
  limit : Option Nat := none
  offset : Option Nat := none
  search_query : Option String := none
  date_from : Option DateTimeUtc := none
  date_to : Option DateTimeUtc := none
  min_quality_score : Option Rat := none
  max_quality_score : Option Rat := none
  status : Option PromptStatus := none
deriving DecidableEq, Repr

/-- Embeds `PromptFilter::default()`. -/
def promptFilterDefault : PromptFilter := {}

/-- Embeds `Comparison` from `filter/mod.rs`. -/
inductive Comparison where
  | GreaterThan
  | GreaterOrEqual
  | LessThan
  | LessOrEqual
  | Equal
deriving DecidableEq, Repr

/-- Embeds `FilterToken` from `filter/mod.rs`. -/
inductive FilterToken where
  | Category (s : String)
  | Tag (s : String)
  | Status (s : PromptStatus)
  | Quality (c : Comparison) (v : Rat)
  | Efficiency (c : Comparison) (v : Rat)
  | DateFrom (d : DateTimeUtc)
  | DateTo (d : DateTimeUtc)
  | Limit (n : Nat)
  | Offset (n : Nat)
  | Search (s : String)
deriving DecidableEq, Repr

/-- Character loop of `split_query`: whitespace-split respecting single or
double quotes, carrying the in-quotes flag, the active quote character and
the (reversed) current token. -/
def splitQueryAux : Bool → Char → List Char → List Char → List (List Char)
  | _, _, current, [] => if current.isEmpty then [] else [current.reverse]
  | inQuotes, quoteChar, current, c :: cs =>
    if (c == '"' || c == '\'') && !inQuotes then
      splitQueryAux true c current cs
    else if c == quoteChar && inQuotes then
      splitQueryAux false quoteChar current cs
    else if (c == ' ' || c == '\t') && !inQuotes then
      if current.isEmpty then splitQueryAux false quoteChar [] cs
      else current.reverse :: splitQueryAux false quoteChar [] cs
    else
      splitQueryAux inQuotes quoteChar (c :: current) cs

/-- Embeds `split_query` from `filter/mod.rs`. -/
def split_query (query : String) : List String :=
  (splitQueryAux false '"' [] query.toList).map (fun cs => String.mk cs)

/-- Split a token at its first colon, as Rust `part.find(':')`. -/
def splitFirstColon : List Char → Option (List Char × List Char)
  | [] => none
  | c :: rest =>
    if c == ':' then some ([], rest)
    else (splitFirstColon rest).map (fun p => (c :: p.1, p.2))

/-- ASCII lowercasing; the source uses Unicode `to_lowercase` but only ever
compares against ASCII keywords. -/
def asciiLower (c : Char) : Char :=
  if 'A' ≤ c ∧ c ≤ 'Z' then Char.ofNat (c.toNat + 32) else c

/-- Lowercase a string (ASCII model of `str::to_lowercase`). -/
def strLower (s : String) : String := String.mk (s.toList.map asciiLower)

/-- Embeds `PromptStatus::from_str` from `models/mod.rs`. -/
def promptStatusFromStr (s : String) : Except String PromptStatus :=
  match strLower s with
  | "active" => .ok .Active
  | "archived" => .ok .Archived
  | "deprecated" => .ok .Deprecated
  | _ => .error ("Invalid status: " ++ s)

/-- Leading digits of a character list together with the rest. -/
def takeDigits (cs : List Char) : List Char × List Char :=
  (cs.takeWhile Char.isDigit, cs.dropWhile Char.isDigit)

/-- Fractional digits as a rational in `[0, 1)`. -/
def fracOfDigits (ds : List Char) : Rat :=
  (digitsToNat ds : Rat) / ((10 : Rat) ^ ds.length)

/-- Rust `str::parse::<f64>` on finite decimal inputs, yielding the exact
decimal value as a rational (grammar: sign, digits with optional fraction
or a leading-dot fraction, optional exponent; `inf`/`NaN` are outside the
model, no claim touches them). -/
def parseF64 (cs : List Char) : Option Rat :=
  let signAndRest : Rat × List Char :=
    match cs with
    | '+' :: r => (1, r)
    | '-' :: r => (-1, r)
    | r => (1, r)
  let sign := signAndRest.1
  let (ip, cs2) := takeDigits signAndRest.2
  let fpAndRest : Option (List Char) × List Char :=
    match cs2 with
    | '.' :: r => let d := takeDigits r; (some d.1, d.2)
    | r => (none, r)
  let fp := fpAndRest.1
  let cs3 := fpAndRest.2
  let okDigits : Bool :=
    match fp with
    | none => !ip.isEmpty
    | some d => !ip.isEmpty || !d.isEmpty
  if okDigits then
    let mant : Rat := (digitsToNat ip : Rat) + (match fp with | none => 0 | some d => fracOfDigits d)
    match cs3 with
    | [] => some (sign * mant)
    | 'e' :: r => parseExpApply sign mant r
    | 'E' :: r => parseExpApply sign mant r
    | _ => none
  else none
where
  /-- Exponent suffix: optional sign then digits; scales the mantissa. -/
  parseExpApply (sign mant : Rat) (r : List Char) : Option Rat :=
    let expSigned : Bool × List Char :=
      match r with
      | '+' :: r2 => (false, r2)
      | '-' :: r2 => (true, r2)
      | r2 => (false, r2)
    let (ed, rest) := takeDigits expSigned.2
    if ed.isEmpty || !rest.isEmpty then none
    else
      let e := digitsToNat ed
      if expSigned.1 then some (sign * mant / ((10 : Rat) ^ e))
      else some (sign * mant * ((10 : Rat) ^ e))

/-- Rust `str::parse::<usize>`: optional `+`, then digits (overflow is not
modelled; no claim uses a limit or offset near `usize::MAX`). -/
def parseUsize (cs : List Char) : Option Nat :=
  let body := match cs with
    | '+' :: r => r
    | r => r
  if body.isEmpty || !body.all Char.isDigit then none else some (digitsToNat body)

/-- Embeds `parse_comparison` from `filter/mod.rs`: strip an optional leading
comparator (default `=`), then parse the number. -/
def parse_comparison (value : String) : Except PromptTrackingError (Comparison × Rat) :=
  let cs := value.toList
  let compAndRest : Comparison × List Char :=
    match cs with
    | '>' :: '=' :: r => (.GreaterOrEqual, r)
    | '<' :: '=' :: r => (.LessOrEqual, r)
    | '>' :: r => (.GreaterThan, r)
    | '<' :: r => (.LessThan, r)
    | r => (.Equal, r)
  match parseF64 compAndRest.2 with
  | some n => .ok (compAndRest.1, n)
  | none =>
      .error (.ConfigError ("Invalid number '" ++ String.mk compAndRest.2 ++ "': invalid float literal"))

/-- Day count of a month (for the strict `%Y-%m-%d` parse). -/
def daysInMonth (y : Int) (m : Nat) : Nat :=
  if m = 2 then
    if y % 4 = 0 ∧ (y % 100 ≠ 0 ∨ y % 400 = 0) then 29 else 28
  else if m = 4 ∨ m = 6 ∨ m = 9 ∨ m = 11 then 30
  else 31

/-- Embeds `NaiveDate::parse_from_str(_, \x22%Y-%m-%d\x22)`: strict four-digit
year, two-digit month and day, calendar-validated. -/
def parseYmd (cs : List Char) : Option DateTimeUtc :=
  match cs with
  | [y1, y2, y3, y4, '-', m1, m2, '-', d1, d2] =>
    if [y1, y2, y3, y4, m1, m2, d1, d2].all Char.isDigit then
      let y : Int := digitsToNat [y1, y2, y3, y4]
      let m := digitsToNat [m1, m2]
      let d := digitsToNat [d1, d2]
      if 1 ≤ m ∧ m ≤ 12 ∧ 1 ≤ d ∧ d ≤ daysInMonth y m then
        some ⟨y, m, d, 0, 0, 0⟩
      else none
    else none
  | _ => none

/-- Embeds `parse_date_comparison` from `filter/mod.rs`. -/
def parse_date_comparison (value : String) : Except PromptTrackingError (Comparison × DateTimeUtc) :=
  let cs := value.toList
  let compAndRest : Comparison × List Char :=
    match cs with
    | '>' :: '=' :: r => (.GreaterOrEqual, r)
    | '<' :: '=' :: r => (.LessOrEqual, r)
    | '>' :: r => (.GreaterThan, r)
    | '<' :: r => (.LessThan, r)
    | r => (.Equal, r)
  match parseYmd compAndRest.2 with
  | some d => .ok (compAndRest.1, d)
  | none =>
      .error (.ConfigError ("Invalid date '" ++ String.mk compAndRest.2 ++ "': input is not enough for unique date and time"))

/-- Embeds `parse_token` from `filter/mod.rs`: recognise `field:value` tokens
(case-insensitive field with aliases); anything else is `none` and will be
collected as free search text. -/
def parse_token (part : String) : Except PromptTrackingError (Option FilterToken) :=
  match splitFirstColon part.toList with
  | none => .ok none
  | some (before, after) =>
    let field := strLower (String.mk before)
    let value := String.mk after
    match field with
    | "category" => .ok (some (.Category value))
    | "cat" => .ok (some (.Category value))
    | "tag" => .ok (some (.Tag value))
    | "status" =>
        match promptStatusFromStr value with
        | .ok s => .ok (some (.Status s))
        | .error e => .error (.ConfigError ("Invalid status: " ++ e))
    | "quality" => (parse_comparison value).map (fun p => some (.Quality p.1 p.2))
    | "q" => (parse_comparison value).map (fun p => some (.Quality p.1 p.2))
    | "efficiency" => (parse_comparison value).map (fun p => some (.Efficiency p.1 p.2))
    | "eff" => (parse_comparison value).map (fun p => some (.Efficiency p.1 p.2))
    | "date" => parseDateToken value
    | "created" => parseDateToken value
    | "limit" =>
        match parseUsize value.toList with
        | some n => .ok (some (.Limit n))
        | none => .error (.ConfigError ("Invalid limit: invalid digit found in string"))
    | "offset" => parseOffsetValue value
    | "skip" => parseOffsetValue value
    | _ => .ok none
where
  /-- The `date`/`created` arm: `>`/`>=`/`=` become `DateFrom`, `<`/`<=`
  become `DateTo`. -/
  parseDateToken (value : String) : Except PromptTrackingError (Option FilterToken) :=
    match parse_date_comparison value with
    | .error e => .error e
    | .ok (comp, d) =>
      match comp with
      | .GreaterThan => .ok (some (.DateFrom d))
      | .GreaterOrEqual => .ok (some (.DateFrom d))
      | .LessThan => .ok (some (.DateTo d))
      | .LessOrEqual => .ok (some (.DateTo d))
      | .Equal => .ok (some (.DateFrom d))
  /-- The `offset`/`skip` arm. -/
  parseOffsetValue (value : String) : Except PromptTrackingError (Option FilterToken) :=
    match parseUsize value.toList with
    | some n => .ok (some (.Offset n))
    | none => .error (.ConfigError ("Invalid offset: invalid digit found in string"))

/-- Token-collection loop of `tokenize_query`: recognised tokens in order,
unrecognised nonempty parts collected as search terms. -/
def tokenizeAux : List String → List FilterToken → List String →
    Except PromptTrackingError (List FilterToken × List String)
  | [], toks, terms => .ok (toks, terms)
  | p :: ps, toks, terms =>
    match parse_token p with
    | .error e => .error e
    | .ok (some t) => tokenizeAux ps (toks ++ [t]) terms
    | .ok none =>
        if p.isEmpty then tokenizeAux ps toks terms
        else tokenizeAux ps toks (terms ++ [p])

/-- Embeds `tokenize_query` from `filter/mod.rs`: split, parse each part, then
space-join the leftover search terms into one trailing `Search` token. -/
def tokenize_query (query : String) : Except PromptTrackingError (List FilterToken) :=
  match tokenizeAux (split_query query) [] [] with
  | .error e => .error e
  | .ok (toks, terms) =>
      .ok (if terms.isEmpty then toks else toks ++ [.Search (sepBy " " terms)])

/-- One step of the `tokens_to_filter` loop. -/
def applyToken (f : PromptFilter) : FilterToken → PromptFilter
  | .Category c => { f with category := some c }
  | .Tag t => { f with tags := f.tags ++ [t] }
  | .Status s => { f with status := some s }
  | .Quality comp v =>
    match comp with
    | .GreaterThan => { f with min_quality_score := some v }
    | .GreaterOrEqual => { f with min_quality_score := some v }
    | .LessThan => { f with max_quality_score := some v }
    | .LessOrEqual => { f with max_quality_score := some v }
    | .Equal => { f with min_quality_score := some v, max_quality_score := some v }
  | .Efficiency comp v =>
    -- The source stores efficiency bounds in the quality fields as a
    -- placeholder, and ONLY for the greater-than comparators; every other
    -- comparator (including Equal) falls through the wildcard arm and
    -- changes nothing.
    match comp with
    | .GreaterThan => { f with min_quality_score := (Option.or f.min_quality_score (some 0)).map (fun _ => v) }
    | .GreaterOrEqual => { f with min_quality_score := (Option.or f.min_quality_score (some 0)).map (fun _ => v) }
    | _ => f
  | .DateFrom d => { f with date_from := some d }
  | .DateTo d => { f with date_to := some d }
  | .Limit n => { f with limit := some n }
  | .Offset n => { f with offset := some n }
  | .Search q => { f with search_query := some q }

/-- Embeds `tokens_to_filter` from `filter/mod.rs` (its only exit is `Ok`). -/
def tokens_to_filter (tokens : List FilterToken) : Except PromptTrackingError PromptFilter :=
  .ok (tokens.foldl applyToken promptFilterDefault)

/-- Embeds `parse_filter_query` from `filter/mod.rs`. -/
def parse_filter_query (query : String) : Except PromptTrackingError PromptFilter :=
  match tokenize_query query with
  | .error e => .error e
  | .ok tokens => tokens_to_filter tokens

/-! ### The filter-to-SQL translator (`list_prompts` query assembly) -/

/-- The fixed SELECT head of `list_prompts`, byte for byte (a Rust raw
string literal including its newlines and indentation). -/
def listBaseSelect : String :=
  "\n            SELECT DISTINCT p.id, p.content, p.content_hash, p.category, p.created_at, p.updated_at,\n                   p.model, p.input_tokens, p.output_tokens, p.execution_time_ms, p.estimated_cost, p.context\n            FROM prompts p\n            "

/-- The tag-join fragment appended when the tag list is nonempty. -/
def listJoinClause : String :=
  "\n                JOIN prompt_tags pt ON p.id = pt.prompt_id\n                JOIN tags t ON pt.tag_id = t.id\n                "

/-- The query-assembly half of `list_prompts` (`database/mod.rs`): the SQL
text together with the ordered bound-parameter list (every parameter the
code pushes is TEXT, so plain strings). Limit and offset are written with
`format!` into the text, exactly as in the source. -/
def buildListQuery (f : PromptFilter) : String × List String :=
  let query := listBaseSelect
  let conditions : List String := []
  let params : List String := []
  let query := if f.tags.isEmpty then query else query ++ listJoinClause
  let step1 : List String × List String :=
    match f.category with
    | some c => (conditions ++ ["p.category = ?" ++ toString (params.length + 1)], params ++ [c])
    | none => (conditions, params)
  let conditions := step1.1
  let params := step1.2
  let step2 : List String × List String :=
    if f.tags.isEmpty then (conditions, params)
    else
      let placeholders := (List.range f.tags.length).map (fun i => "?" ++ toString (params.length + i + 1))
      (conditions ++ ["t.name IN (" ++ sepBy ", " placeholders ++ ")"], params ++ f.tags)
  let conditions := step2.1
  let params := step2.2
  let step3 : List String × List String :=
    match f.search_query with
    | some s => (conditions ++ ["p.content LIKE ?" ++ toString (params.length + 1)], params ++ ["%" ++ s ++ "%"])
    | none => (conditions, params)
  let conditions := step3.1
  let params := step3.2
  let step4 : List String × List String :=
    match f.date_from with
    | some d => (conditions ++ ["p.created_at >= ?" ++ toString (params.length + 1)], params ++ [toRfc3339 d])
    | none => (conditions, params)
  let conditions := step4.1
  let params := step4.2
  let step5 : List String × List String :=
    match f.date_to with
    | some d => (conditions ++ ["p.created_at <= ?" ++ toString (params.length + 1)], params ++ [toRfc3339 d])
    | none => (conditions, params)
  let conditions := step5.1
  let params := step5.2
  let query := if conditions.isEmpty then query else query ++ " WHERE " ++ sepBy " AND " conditions
  let query := query ++ " ORDER BY p.created_at DESC"
  let query :=
    match f.limit, f.offset with
    | some l, some o => query ++ " LIMIT " ++ toString l ++ " OFFSET " ++ toString o
    | some l, none => query ++ " LIMIT " ++ toString l
    | none, some o => query ++ " LIMIT -1 OFFSET " ++ toString o
    | none, none => query
  (query, params)

/-- Replace every data value in a filter by a fixed scrub value while
keeping its shape (which dimensions are present, how many tags) and its
limit/offset. If the SQL text never embeds a data value, building a query
from the scrubbed filter must give the same text. -/
def scrubValues (f : PromptFilter) : PromptFilter where
  category := f.category.map (fun _ => "")
  tags := f.tags.map (fun _ => "")
  limit := f.limit
  offset := f.offset
  search_query := f.search_query.map (fun _ => "")
  date_from := f.date_from.map (fun _ => ⟨0, 0, 0, 0, 0, 0⟩)
  date_to := f.date_to.map (fun _ => ⟨0, 0, 0, 0, 0, 0⟩)
  min_quality_score := none
  max_quality_score := none
  status := none

/-- Modelled from the spec: the bound-parameter list §4.3 prescribes — the
category, then the tag names, then the `%`-wrapped search text, then the
two rfc3339 date bounds, in clause order. -/
def boundParamsSpec (f : PromptFilter) : List String :=
  f.category.toList ++ f.tags ++ (f.search_query.map (fun s => "%" ++ s ++ "%")).toList ++
    (f.date_from.map toRfc3339).toList ++ (f.date_to.map toRfc3339).toList

/-! ### The record store (`database/mod.rs`)

SQLite tables are lists of rows in rowid order; integer-key allocation is
an explicit counter. `prompts.execution_time_ms` is stored as a SQLite
INTEGER (`i64`, via Rust `v as i64`) and read back `as u64`. -/

/-- Rust `u64 as i64` (the value stored in the INTEGER column). -/
def toSigned64 (v : Nat) : Int :=
  if v < 2 ^ 63 then (v : Int) else (v : Int) - 2 ^ 64

/-- Rust `i64 as u64` (the value read back from the column). -/
def toUnsigned64 (i : Int) : Nat := (i % 2 ^ 64).toNat

/-- A row of the `prompts` table (the 12 columns of the INSERT; the table
has no status column, and timestamps are carried per the conventions
above). -/
structure PromptRow where
  id : String
  content : String
  content_hash : String
  category : Option String
  created_at : DateTimeUtc
  updated_at : DateTimeUtc
  model : String
  input_tokens : Option Nat
  output_tokens : Option Nat
  execution_time_ms : Option Int
  estimated_cost : Option Rat
  context : Option String
deriving DecidableEq, Repr

/-- A row of the `tags` table. -/
structure TagRow where
  id : Nat
  name : String
deriving DecidableEq, Repr

/-- A row of the `version_history` table. -/
structure VersionHistory where
  id : Nat
  prompt_id : String
  content : String
  content_hash : String
  version : Int
  created_at : DateTimeUtc
deriving DecidableEq, Repr

/-- The store state: the tables of `initialize_schema`, with counters for
the integer keys SQLite allocates. -/
structure DB where
  prompts : List PromptRow := []
  tags : List TagRow := []
  next_tag_id : Nat := 1
  prompt_tags : List (String × Nat) := []
  quality_scores : List QualityScore := []
  efficiency_metrics : List EfficiencyMetrics := []
  version_history : List VersionHistory := []
  next_version_id : Nat := 1
deriving DecidableEq, Repr

/-- The freshly initialised (in-memory) store. -/
def emptyDB : DB := {}

/-- The column values `create_prompt` binds for the INSERT. -/
def promptToRow (p : Prompt) : PromptRow where
  id := p.id
  content := p.content
  content_hash := p.content_hash
  category := p.category
  created_at := p.created_at
  updated_at := p.updated_at
  model := p.metadata.model
  input_tokens := p.metadata.input_tokens
  output_tokens := p.metadata.output_tokens
  execution_time_ms := p.metadata.execution_time_ms.map toSigned64
  estimated_cost := p.metadata.estimated_cost
  context := p.metadata.context

/-- Embeds `row_to_prompt` from `database/mod.rs`: rebuild a `Prompt` from a row;
tags are populated separately, and the row has no status column, so the
reconstructed prompt carries the default status. -/
def rowToPrompt (r : PromptRow) (tags : List String) : Prompt where
  id := r.id
  content := r.content
  content_hash := r.content_hash
  category := r.category
  tags := tags
  status := .Active
  created_at := r.created_at
  updated_at := r.updated_at
  metadata :=
    { model := r.model
      input_tokens := r.input_tokens
      output_tokens := r.output_tokens
      execution_time_ms := r.execution_time_ms.map toUnsigned64
      estimated_cost := r.estimated_cost
      context := r.context }

/-- Embeds `add_tag_to_prompt` from `database/mod.rs`: `INSERT OR IGNORE` the tag
name (UNIQUE on name), `SELECT` its id (first matching row), then
`INSERT OR IGNORE` the junction row (primary key `(prompt_id, tag_id)`). -/
def add_tag_to_prompt (db : DB) (prompt_id tag : String) : Except PromptTrackingError DB :=
  let db1 :=
    if db.tags.any (fun t => t.name == tag) then db
    else { db with tags := db.tags ++ [⟨db.next_tag_id, tag⟩], next_tag_id := db.next_tag_id + 1 }
  match db1.tags.find? (fun t => t.name == tag) with
  | none => .error (.DatabaseError "Failed to get tag ID: Query returned no rows")
  | some t =>
    if db1.prompt_tags.any (fun l => l.1 == prompt_id && l.2 == t.id) then .ok db1
    else .ok { db1 with prompt_tags := db1.prompt_tags ++ [(prompt_id, t.id)] }

/-- The tag-insertion loop of `create_prompt` / `update_prompt`. -/
def addTagsLoop (db : DB) (prompt_id : String) : List String → Except PromptTrackingError DB
  | [] => .ok db
  | t :: ts =>
    match add_tag_to_prompt db prompt_id t with
    | .error e => .error e
    | .ok db1 => addTagsLoop db1 prompt_id ts

/-- Embeds `create_prompt` from `database/mod.rs`: INSERT the prompt row (fails on
a duplicate primary key), then insert and link each tag. -/
def create_prompt (db : DB) (p : Prompt) : Except PromptTrackingError DB :=
  if db.prompts.any (fun r => r.id == p.id) then
    .error (.DatabaseError "Failed to create prompt: UNIQUE constraint failed: prompts.id")
  else
    addTagsLoop { db with prompts := db.prompts ++ [promptToRow p] } p.id p.tags

/-- Embeds `get_tags_for_prompt` from `database/mod.rs`: the junction rows of the
prompt joined to the tag names. -/
def get_tags_for_prompt (db : DB) (prompt_id : String) : List String :=
  (db.prompt_tags.filter (fun l => l.1 == prompt_id)).filterMap
    (fun l => (db.tags.find? (fun t => t.id == l.2)).map (fun t => t.name))

/-- Embeds `get_prompt` from `database/mod.rs`: first row with the id, tags
populated. -/
def get_prompt (db : DB) (id : String) : Option Prompt :=
  (db.prompts.find? (fun r => r.id == id)).map
    (fun r => rowToPrompt r (get_tags_for_prompt db r.id))

/-- Embeds `update_prompt` from `database/mod.rs`: UPDATE the mutable columns of
the row (created_at is not in the SET list), then delete all tag links and
re-insert the prompt's tags. -/
def update_prompt (db : DB) (p : Prompt) : Except PromptTrackingError DB :=
  let prompts' := db.prompts.map (fun r =>
    if r.id == p.id then
      { r with
        content := p.content
        content_hash := p.content_hash
        category := p.category
        updated_at := p.updated_at
        model := p.metadata.model
        input_tokens := p.metadata.input_tokens
        output_tokens := p.metadata.output_tokens
        execution_time_ms := p.metadata.execution_time_ms.map toSigned64
        estimated_cost := p.metadata.estimated_cost
        context := p.metadata.context }
    else r)
  let db1 := { db with prompts := prompts',
                       prompt_tags := db.prompt_tags.filter (fun l => !(l.1 == p.id)) }
  addTagsLoop db1 p.id p.tags

/-- Embeds `delete_prompt` from `database/mod.rs`: one DELETE on `prompts`;
`ON DELETE CASCADE` (declared in the schema) removes the children of each
actually deleted row, so nothing else changes when no row matches. -/
def delete_prompt (db : DB) (id : String) : Except PromptTrackingError DB :=
  let existed := db.prompts.any (fun r => r.id == id)
  let db1 := { db with prompts := db.prompts.filter (fun r => !(r.id == id)) }
  .ok (if existed then
    { db1 with
      prompt_tags := db1.prompt_tags.filter (fun l => !(l.1 == id))
      quality_scores := db1.quality_scores.filter (fun s => !(s.prompt_id == id))
      efficiency_metrics := db1.efficiency_metrics.filter (fun m => !(m.prompt_id == id))
      version_history := db1.version_history.filter (fun v => !(v.prompt_id == id)) }
  else db1)

/-- Embeds `find_by_hash` from `database/mod.rs`: first row with the content
hash, tags populated. -/
def find_by_hash (db : DB) (hash : String) : Option Prompt :=
  (db.prompts.find? (fun r => r.content_hash == hash)).map
    (fun r => rowToPrompt r (get_tags_for_prompt db r.id))

/-- Embeds `count_prompts` from `database/mod.rs`. -/
def count_prompts (db : DB) : Nat := db.prompts.length

/-- Embeds `save_quality_score` from `database/mod.rs`: append-only INSERT. -/
def save_quality_score (db : DB) (score : QualityScore) : DB :=
  { db with quality_scores := db.quality_scores ++ [score] }

/-- Embeds `save_efficiency_metrics` from `database/mod.rs`: append-only INSERT. -/
def save_efficiency_metrics (db : DB) (metrics : EfficiencyMetrics) : DB :=
  { db with efficiency_metrics := db.efficiency_metrics ++ [metrics] }

/-- Embeds `get_quality_score` from `database/mod.rs`: most recent row for the
prompt (`ORDER BY analyzed_at DESC LIMIT 1`). -/
def get_quality_score (db : DB) (prompt_id : String) : Option QualityScore :=
  (sortByB (fun a b => dtLeB b.analyzed_at a.analyzed_at)
    (db.quality_scores.filter (fun s => s.prompt_id == prompt_id))).head?

/-- Embeds `get_efficiency_metrics` from `database/mod.rs`: most recent row for
the prompt (`ORDER BY calculated_at DESC LIMIT 1`). -/
def get_efficiency_metrics (db : DB) (prompt_id : String) : Option EfficiencyMetrics :=
  (sortByB (fun a b => dtLeB b.calculated_at a.calculated_at)
    (db.efficiency_metrics.filter (fun m => m.prompt_id == prompt_id))).head?

/-- Embeds `get_all_quality_scores` from `database/mod.rs`
(`ORDER BY analyzed_at DESC`). -/
def get_all_quality_scores (db : DB) : List QualityScore :=
  sortByB (fun a b => dtLeB b.analyzed_at a.analyzed_at) db.quality_scores

/-- SQLite `LIKE '%s%'` on the content column: substring containment (the
ASCII case-insensitivity and inner wildcards of LIKE are not exercised by
any claim; this predicate is only evaluated when a search filter is set). -/
def likeContains (content pattern : String) : Bool :=
  let c := content.toList.map asciiLower
  let p := pattern.toList.map asciiLower
  (List.range (c.length + 1)).any (fun i => (c.drop i).take p.length == p)

/-- The row predicate of the WHERE clause `buildListQuery` emits: category
equality, membership of one of the requested tags (via the junction join),
substring search, and the inclusive date bounds. -/
def listRowMatches (db : DB) (f : PromptFilter) (r : PromptRow) : Bool :=
  (match f.category with
   | some c => r.category == some c
   | none => true) &&
  (f.tags.isEmpty ||
    db.prompt_tags.any (fun l =>
      l.1 == r.id && db.tags.any (fun t => t.id == l.2 && f.tags.contains t.name))) &&
  (match f.search_query with
   | some s => likeContains r.content s
   | none => true) &&
  (match f.date_from with
   | some d => dtLeB d r.created_at
   | none => true) &&
  (match f.date_to with
   | some d => dtLeB r.created_at d
   | none => true)

/-- Embeds `list_prompts` from `database/mod.rs`, as the relational semantics of
the query `buildListQuery` assembles: filter, DISTINCT, ORDER BY
created_at DESC, OFFSET then LIMIT (`LIMIT -1` meaning unbounded), then
the per-row tag fetch. -/
def list_prompts (db : DB) (f : PromptFilter) : List Prompt :=
  let rows := db.prompts.filter (listRowMatches db f)
  let rows := rows.dedup
  let rows := sortByB (fun a b => dtLeB b.created_at a.created_at) rows
  let rows :=
    match f.limit, f.offset with
    | some l, some o => (rows.drop o).take l
    | some l, none => rows.take l
    | none, some o => rows.drop o
    | none, none => rows
  rows.map (fun r => rowToPrompt r (get_tags_for_prompt db r.id))

/-! ### Versioning subsystem -/

/-- Embeds `save_version` from `database/mod.rs`: read
`COALESCE(MAX(version), 0) + 1` for the prompt id, then INSERT the
snapshot of the prompt's current content and hash at that version. -/
def save_version (db : DB) (p : Prompt) (now : DateTimeUtc) : DB :=
  let version : Int :=
    (db.version_history.filter (fun r => r.prompt_id == p.id)).foldl
      (fun a r => max a r.version) 0 + 1
  { db with
    version_history :=
      db.version_history ++ [⟨db.next_version_id, p.id, p.content, p.content_hash, version, now⟩]
    next_version_id := db.next_version_id + 1 }

/-- Embeds `get_version_history` from `database/mod.rs`: the prompt's snapshots,
`ORDER BY version DESC`. -/
def get_version_history (db : DB) (prompt_id : String) : List VersionHistory :=
  sortByB (fun a b => decide (b.version ≤ a.version))
    (db.version_history.filter (fun r => r.prompt_id == prompt_id))

/-- Embeds `restore_version` from `database/mod.rs`: look up the snapshot (the
missing-row error is wrapped as `DatabaseError("Version not found: ...")`
— the query error's Display is appended, and the dedicated
`VersionNotFound` variant is never constructed), then fetch the live
prompt, snapshot its current state, overwrite content/hash/updated_at
from the requested snapshot and persist. -/
def restore_version (db : DB) (prompt_id : String) (version : Int) (now : DateTimeUtc) :
    Except PromptTrackingError (DB × Prompt) :=
  match db.version_history.find? (fun r => r.prompt_id == prompt_id && r.version == version) with
  | none => .error (.DatabaseError "Version not found: Query returned no rows")
  | some h =>
    match get_prompt db prompt_id with
    | none => .error (.DatabaseError "Prompt not found")
    | some p =>
      let db1 := save_version db p now
      let p' := { p with content := h.content, content_hash := h.content_hash, updated_at := now }
      match update_prompt db1 p' with
      | .error e => .error e
      | .ok db2 => .ok (db2, p')

/-! ### Export / import -/

/-- The structured content of the JSON export document. serde
serialization then deserialization of these records is the identity, so
the document is carried in structured form. -/
structure ExportDoc where
  version : String
  exported_at : DateTimeUtc
  prompts : List Prompt
  quality_scores : List QualityScore
  efficiency_metrics : List EfficiencyMetrics
deriving DecidableEq, Repr

/-- The per-prompt latest-metrics collection loop of `export_to_json`. -/
def collectLatestMetrics (db : DB) (prompts : List Prompt) : List EfficiencyMetrics :=
  prompts.filterMap (fun p => get_efficiency_metrics db p.id)

/-- Embeds `export_to_json` from `database/mod.rs`: all prompts of the default
listing, all quality scores, and each listed prompt's latest efficiency
metrics. -/
def export_to_json (db : DB) (now : DateTimeUtc) : ExportDoc where
  version := "1.0"
  exported_at := now
  prompts := list_prompts db promptFilterDefault
  quality_scores := get_all_quality_scores db
  efficiency_metrics := collectLatestMetrics db (list_prompts db promptFilterDefault)

/-- The prompt loop of `import_from_json`: skip any prompt whose
content_hash is already stored, insert the rest, counting insertions. -/
def importPromptsLoop (db : DB) (imported : Nat) :
    List Prompt → Except PromptTrackingError (DB × Nat)
  | [] => .ok (db, imported)
  | p :: ps =>
    if (find_by_hash db p.content_hash).isSome then importPromptsLoop db imported ps
    else
      match create_prompt db p with
      | .error e => .error e
      | .ok db1 => importPromptsLoop db1 (imported + 1) ps

/-- The quality-score loop of `import_from_json` (`let _ = ...`: insert
failures are swallowed; in the model the append-only insert always
succeeds). -/
def importScoresLoop (db : DB) : List QualityScore → DB
  | [] => db
  | s :: ss => importScoresLoop (save_quality_score db s) ss

/-- The efficiency-metrics loop of `import_from_json` (failures likewise
swallowed). -/
def importMetricsLoop (db : DB) : List EfficiencyMetrics → DB
  | [] => db
  | m :: ms => importMetricsLoop (save_efficiency_metrics db m) ms

/-- Embeds `import_from_json` from `database/mod.rs`: prompts (hash-deduplicated,
counted), then quality scores, then efficiency metrics. -/
def import_from_json (db : DB) (doc : ExportDoc) : Except PromptTrackingError (DB × Nat) :=
  match importPromptsLoop db 0 doc.prompts with
  | .error e => .error e
  | .ok (db1, imported) =>
      .ok (importMetricsLoop (importScoresLoop db1 doc.quality_scores) doc.efficiency_metrics, imported)

/-! ### Migration manager (`migration/mod.rs`) -/

/-- Embeds `CURRENT_VERSION` from `migration/mod.rs`. -/
def CURRENT_VERSION : Int := 2

/-- The state `needs_migration` can see and touch: the `schema_version`
ledger, `none` when the table does not exist (the function runs only
`CREATE TABLE IF NOT EXISTS schema_version ...` and one SELECT on it; no
other table is referenced). -/
structure MigState where
  schema_version : Option (List (Int × String))
deriving DecidableEq, Repr

/-- Embeds `ensure_schema_version_table`: creates the (empty) ledger when absent. -/
def ensure_schema_version_table (s : MigState) : MigState :=
  match s.schema_version with
  | none => ⟨some []⟩
  | some _ => s

/-- Embeds `get_current_version`: `SELECT COALESCE(MAX(version), 0)` on the
ledger (only ever called once the table exists). -/
def get_current_version (s : MigState) : Int :=
  (s.schema_version.getD []).foldl (fun a r => max a r.1) 0

/-- Embeds `needs_migration` from `migration/mod.rs`: ensure the ledger table,
then compare the recorded version with `CURRENT_VERSION`; returns the
answer together with the store state it leaves behind. -/
def needs_migration (s : MigState) : MigState × Bool :=
  let s1 := ensure_schema_version_table s
  (s1, decide (get_current_version s1 < CURRENT_VERSION))

/-! ### TTL cache (`cache/mod.rs`)

The `HashMap` is modelled as its iteration-order list of entries: Rust's
`HashMap` iteration order is unspecified (randomized hashing), so any
ordering of the stored pairs is a reachable map state; `keys().next()`
is the head of that order. `Instant::now()` is an explicit `Nat` clock.
A fresh key is appended on insert (its position is immaterial: no claim
inspects the order beyond what `set` itself does). -/

structure CacheEntry (α : Type) where
  value : α
  expires_at : Nat
deriving DecidableEq, Repr

/-- Embeds `Cache::evict_expired`: retain the entries that still live. -/
def evict_expired (now : Nat) (data : List (String × CacheEntry α)) :
    List (String × CacheEntry α) :=
  data.filter (fun kv => now < kv.2.expires_at)

/-- Embeds `HashMap::remove` (keys are unique in a map). -/
def removeKey (k : String) (data : List (String × CacheEntry α)) :
    List (String × CacheEntry α) :=
  data.filter (fun kv => !(kv.1 == k))

/-- Embeds `HashMap::insert`: replace in place, or append a fresh key. -/
def insertKey (k : String) (e : CacheEntry α) :
    List (String × CacheEntry α) → List (String × CacheEntry α)
  | [] => [(k, e)]
  | kv :: rest => if kv.1 == k then (k, e) :: rest else kv :: insertKey k e rest

/-- Embeds `Cache::set` from `cache/mod.rs`: when at capacity, evict the expired
entries; when still at capacity, remove the entry `keys().next()` yields
(the head of the map's iteration order); then insert with
`expires_at = now + ttl`. -/
def cache_set (ttl max_size : Nat) (now : Nat) (data : List (String × CacheEntry α))
    (key : String) (v : α) : List (String × CacheEntry α) :=
  let data1 := if max_size ≤ data.length then evict_expired now data else data
  let data2 :=
    if max_size ≤ data1.length then
      match data1.head? with
      | some kv => removeKey kv.1 data1
      | none => data1
    else data1
  insertKey key ⟨v, now + ttl⟩ data2


-- Equality of `Except` results is decidable componentwise (used to
-- evaluate the embedded operations at concrete inputs).
deriving instance DecidableEq for Except

/-- A concrete prompt used by the witness theorems. -/
def samplePrompt : Prompt where
  id := "p1"
  content := "hello"
  content_hash := "h1"
  category := some "code"
  tags := ["a", "b"]
  status := .Active
  created_at := ⟨2024, 1, 1, 0, 0, 0⟩
  updated_at := ⟨2024, 1, 1, 0, 0, 0⟩
  metadata :=
    { model := "m"
      input_tokens := some 1
      output_tokens := some 2
      execution_time_ms := some 3
      estimated_cost := some 5
      context := some "ctx" }

/-- Embeds `create_prompt` followed by `get_prompt` on the same id (the
round-trip sequence claim C1 speaks about); `none` when the insert
failed. -/
def createThenGet (db : DB) (p : Prompt) : Option Prompt :=
  match create_prompt db p with
  | .ok db' => get_prompt db' p.id
  | .error _ => none

/-- The tag-table invariant every store reachable through the embedded
operations keeps: tag ids are unique and below the allocation counter,
and junction rows point below the counter as well. -/
def TagInv (db : DB) : Prop :=
  (db.tags.map TagRow.id).Nodup ∧
  (∀ t ∈ db.tags, t.id < db.next_tag_id) ∧
  (∀ l ∈ db.prompt_tags, l.2 < db.next_tag_id)

/-- Store wellformedness: the tag-table invariant plus referential
integrity of the junction table (its `prompt_id` column references
`prompts(id)`). -/
def DBWellFormed (db : DB) : Prop :=
  TagInv db ∧ ∀ l ∈ db.prompt_tags, ∃ r ∈ db.prompts, r.id = l.1

/-- Validity of a prompt value: the execution time fits in the `u64` the
Rust field holds. -/
def ValidPrompt (p : Prompt) : Prop :=
  match p.metadata.execution_time_ms with
  | none => True
  | some v => v < 2 ^ 64

/-! ## Theorems -/

theorem mem_insertSorted (le : α → α → Bool) (a x : α) (l : List α) :
    x ∈ insertSorted le a l ↔ x = a ∨ x ∈ l := by
  induction l with
  | nil => simp [insertSorted]
  | cons b bs ih =>
      by_cases h : le a b = true
      · simp [insertSorted, h]
      · rw [Bool.not_eq_true] at h
        simp only [insertSorted, h, Bool.false_eq_true, if_false, List.mem_cons, ih]
        tauto

theorem mem_sortByB (le : α → α → Bool) (x : α) (l : List α) :
    x ∈ sortByB le l ↔ x ∈ l := by
  induction l with
  | nil => simp [sortByB]
  | cons a as ih => simp [sortByB, mem_insertSorted, ih]

theorem toUnsigned64_toSigned64 (v : Nat) (h : v < 2 ^ 64) :
    toUnsigned64 (toSigned64 v) = v := by
  unfold toSigned64 toUnsigned64
  by_cases h63 : v < 2 ^ 63
  · rw [if_pos h63, Int.emod_eq_of_lt (by positivity) (by exact_mod_cast h)]
    exact Int.toNat_natCast v
  · rw [if_neg h63]
    have : ((v : Int) - 2 ^ 64) % 2 ^ 64 = (v : Int) % 2 ^ 64 := by
      omega
    rw [this, Int.emod_eq_of_lt (by positivity) (by exact_mod_cast h)]
    exact Int.toNat_natCast v

theorem find?_append_of_none {p : α → Bool} {l₁ l₂ : List α}
    (h : l₁.find? p = none) : (l₁ ++ l₂).find? p = l₂.find? p := by
  induction l₁ with
  | nil => rfl
  | cons a as ih =>
      rw [List.find?_cons] at h
      rcases hpa : p a with _ | _
      · rw [List.cons_append, List.find?_cons, hpa]
        exact ih (by rwa [hpa] at h)
      · rw [hpa] at h; cases h

theorem find?_append_of_some {p : α → Bool} {l₁ l₂ : List α} {a : α}
    (h : l₁.find? p = some a) : (l₁ ++ l₂).find? p = some a := by
  induction l₁ with
  | nil => cases h
  | cons b bs ih =>
      rw [List.find?_cons] at h
      rcases hpb : p b with _ | _
      · rw [List.cons_append, List.find?_cons, hpb]
        exact ih (by rwa [hpb] at h)
      · rw [hpb] at h
        rw [List.cons_append, List.find?_cons, hpb]
        exact h

set_option maxRecDepth 4000 in
/-- C1 helper is below; C2: `parse_filter_query` on
`category:code tag:rust quality:>80 fibonacci` succeeds and yields
category `code`, tags exactly `[rust]`, a minimum quality score of 80, no
maximum quality score, and search text `fibonacci`. -/
theorem parse_filter_query_combined_example :
    (parse_filter_query "category:code tag:rust quality:>80 fibonacci").map
      (fun f => (f.category, f.tags, f.min_quality_score, f.max_quality_score, f.search_query)) =
    .ok (some "code", ["rust"], some 80, none, some "fibonacci") := by
  with_unfolding_all decide

set_option maxRecDepth 4000 in
/-- C6 counterexample: the token `efficiency:80` (no leading comparator,
so the `=` default) sets neither score bound — the filter is not the
claimed point range at 80. -/
theorem efficiency_equal_sets_no_bounds :
    (parse_filter_query "efficiency:80").map
      (fun f => (f.min_quality_score, f.max_quality_score)) = .ok (none, none) ∧
    (parse_filter_query "efficiency:80").map
      (fun f => (f.min_quality_score, f.max_quality_score)) ≠ .ok (some 80, some 80) := by
  with_unfolding_all decide

/-- C6 (amended): for every numeric value `v` as parsed by the `=` default
of `parse_comparison`, a `Quality` token with `=` sets both the lower and
the upper bound to `v` (a point range), while an `Efficiency` token with
`=` is dropped and sets neither bound. -/
theorem quality_equal_point_range_efficiency_ignored (s : String) (v : Rat)
    (h : parse_comparison s = .ok (.Equal, v)) :
    (tokens_to_filter [.Quality .Equal v]).map
      (fun f => (f.min_quality_score, f.max_quality_score)) = .ok (some v, some v) ∧
    (tokens_to_filter [.Efficiency .Equal v]).map
      (fun f => (f.min_quality_score, f.max_quality_score)) = .ok (none, none) :=
  ⟨rfl, rfl⟩

/-- Witness for the amended C6 at the concrete token value `80`. -/
theorem quality_equal_point_range_efficiency_ignored_witness :
    parse_comparison "80" = .ok (.Equal, 80) ∧
    ((tokens_to_filter [.Quality .Equal 80]).map
        (fun f => (f.min_quality_score, f.max_quality_score)) = .ok (some 80, some 80) ∧
      (tokens_to_filter [.Efficiency .Equal 80]).map
        (fun f => (f.min_quality_score, f.max_quality_score)) = .ok (none, none)) :=
  ⟨by with_unfolding_all decide,
    quality_equal_point_range_efficiency_ignored "80" 80 (by with_unfolding_all decide)⟩

set_option maxRecDepth 4000 in
/-- C3 counterexample: two filters that differ only in the limit value
produce different SQL texts with identical bound-parameter lists — the
limit literal is formatted into the query string rather than bound. -/
theorem list_query_limit_spliced_into_text :
    (buildListQuery { limit := some 7 }).1 ≠ (buildListQuery { limit := some 8 }).1 ∧
    (buildListQuery { limit := some 7 }).2 = (buildListQuery { limit := some 8 }).2 := by
  with_unfolding_all decide

/-- C3 (amended): the category, tag, search-text and date values are
passed only as bound parameters — scrubbing every such value out of the
filter leaves the SQL text unchanged, and the parameter list is exactly
the clause-ordered value list; the limit and offset values, however, are
formatted directly into the text (they survive the scrub as part of the
query string). -/
theorem list_query_text_shape_and_params (f : PromptFilter) :
    (buildListQuery f).1 = (buildListQuery (scrubValues f)).1 ∧
    (buildListQuery f).2 = boundParamsSpec f := by
  obtain ⟨cat, tags, lim, off, search, df, dt, minq, maxq, status⟩ := f
  cases cat <;> cases search <;> cases df <;> cases dt <;> cases lim <;> cases off <;> cases tags <;>
    simp [buildListQuery, scrubValues, boundParamsSpec, List.length_append, List.length_map]

/-- C4 counterexample: on a store without the `schema_version` table,
`needs_migration` creates it — the store's state changes, so the call is
not a pure read. -/
theorem needs_migration_creates_ledger_table :
    (needs_migration ⟨none⟩).1 ≠ ⟨none⟩ := by decide

/-- C4 (amended): `needs_migration` returns whether the recorded version
(0 for an empty or absent ledger) is below `CURRENT_VERSION`; it leaves
an existing ledger's contents unchanged, but first creates the empty
`schema_version` table when it is absent. -/
theorem needs_migration_value_and_ledger_effect (s : MigState) :
    (needs_migration s).2 = decide (get_current_version s < CURRENT_VERSION) ∧
    (needs_migration s).1.schema_version = some (s.schema_version.getD []) := by
  rcases s with ⟨_ | rows⟩ <;>
    simp [needs_migration, ensure_schema_version_table, get_current_version]

/-- C5: with no snapshot stored for `(p1, 1)`, `restore_version` fails
with the generic `DatabaseError` wrapper around the driver's no-rows
message — not with the `VersionNotFound` variant the error type documents
for exactly this case (no code path ever constructs that variant). The
error is raised before any write. -/
theorem restore_version_missing_snapshot_database_error :
    restore_version emptyDB "p1" 1 ⟨2024, 5, 1, 0, 0, 0⟩ =
      .error (.DatabaseError "Version not found: Query returned no rows") ∧
    (PromptTrackingError.DatabaseError "Version not found: Query returned no rows" ≠
      PromptTrackingError.VersionNotFound "p1" 1) := by
  with_unfolding_all decide

/-- C9: a capacity-2 cache holding the entries `b` (expires 10) and `a`
(expires 5) — with the fixed ttl, `a` is the oldest-inserted — in an
iteration order putting `b` first; with nothing expired at `now = 0`,
`set` evicts `b`, the head of the iteration order and the *newest* entry,
while the oldest entry `a` survives. -/
theorem cache_set_evicts_head_not_oldest :
    cache_set 4 2 0 [("b", ⟨0, 10⟩), ("a", ⟨0, 5⟩)] "c" (0 : Nat) =
      [("a", ⟨0, 5⟩), ("c", ⟨0, 4⟩)] ∧
    ((0 : Nat) < 5 ∧ (0 : Nat) < 10) ∧ (5 : Nat) < 10 := by
  decide

/-- C10: deleting an id held by no stored prompt returns `Ok` and leaves
the store unchanged. -/
theorem delete_missing_prompt_noop (db : DB) (id : String)
    (h : ∀ r ∈ db.prompts, r.id ≠ id) :
    delete_prompt db id = .ok db := by
  have hany : db.prompts.any (fun r => r.id == id) = false := by
    rw [List.any_eq_false]
    intro r hr
    simpa using h r hr
  have hfilter : db.prompts.filter (fun r => !(r.id == id)) = db.prompts := by
    apply List.filter_eq_self.mpr
    intro r hr
    simpa using h r hr
  simp [delete_prompt, hany, hfilter]

/-- Witness for C10 at a concrete store holding one prompt. -/
theorem delete_missing_prompt_noop_witness :
    (∀ r ∈ ({ prompts := [promptToRow samplePrompt] } : DB).prompts, r.id ≠ "absent") ∧
    delete_prompt { prompts := [promptToRow samplePrompt] } "absent" =
      .ok { prompts := [promptToRow samplePrompt] } :=
  ⟨by decide, delete_missing_prompt_noop { prompts := [promptToRow samplePrompt] } "absent" (by decide)⟩

/-- C7: two `save_version` calls on one prompt id (any mutation in
between), starting from a history holding no snapshot for that id, leave
a two-entry history whose version numbers, newest first, are `[2, 1]`. -/
theorem save_version_twice_history (db : DB) (p1 p2 : Prompt) (n1 n2 : DateTimeUtc)
    (hid : p2.id = p1.id)
    (h : db.version_history.filter (fun r => r.prompt_id == p1.id) = []) :
    (get_version_history (save_version (save_version db p1 n1) p2 n2) p1.id).map
      (fun v => v.version) = [2, 1] := by
  simp only [save_version, get_version_history, hid, List.filter_append, h, List.nil_append,
    List.filter_cons, List.filter_nil, beq_self_eq_true, if_true, List.foldl_cons, List.foldl_nil]
  norm_num [sortByB, insertSorted]

/-- Witness for C7: concrete double snapshot on a fresh store. -/
theorem save_version_twice_history_witness :
    ({ samplePrompt with content := "world", content_hash := "h2" } : Prompt).id = samplePrompt.id ∧
    emptyDB.version_history.filter (fun r => r.prompt_id == samplePrompt.id) = [] ∧
    (get_version_history
        (save_version (save_version emptyDB samplePrompt ⟨2024, 1, 2, 0, 0, 0⟩)
          { samplePrompt with content := "world", content_hash := "h2" } ⟨2024, 1, 3, 0, 0, 0⟩)
        samplePrompt.id).map (fun v => v.version) = [2, 1] :=
  ⟨rfl, rfl,
    save_version_twice_history emptyDB samplePrompt
      { samplePrompt with content := "world", content_hash := "h2" }
      ⟨2024, 1, 2, 0, 0, 0⟩ ⟨2024, 1, 3, 0, 0, 0⟩ rfl rfl⟩

theorem find?_id_eq_self {tags : List TagRow} (hnd : (tags.map TagRow.id).Nodup)
    {t : TagRow} (ht : t ∈ tags) : tags.find? (fun x => x.id == t.id) = some t := by
  induction tags with
  | nil => cases ht
  | cons a as ih =>
      rw [List.map_cons, List.nodup_cons] at hnd
      rcases List.mem_cons.mp ht with rfl | hmem
      · simp [List.find?_cons]
      · have hne : (a.id == t.id) = false := by
          rw [beq_eq_false_iff_ne]
          intro he
          exact hnd.1 (he ▸ List.mem_map_of_mem TagRow.id hmem)
        rw [List.find?_cons, hne]
        exact ih hnd.2 hmem


theorem get_tags_append_link (db : DB) (pid : String) (t : TagRow)
    (hnd : (db.tags.map TagRow.id).Nodup) (htmem : t ∈ db.tags) :
    get_tags_for_prompt { db with prompt_tags := db.prompt_tags ++ [(pid, t.id)] } pid
      = get_tags_for_prompt db pid ++ [t.name] := by
  unfold get_tags_for_prompt
  show ((db.prompt_tags ++ [(pid, t.id)]).filter _).filterMap _ = _
  rw [List.filter_append, List.filterMap_append]
  congr 1
  simp [List.filter_cons, find?_id_eq_self hnd htmem]

theorem add_tag_spec (db : DB) (pid tag : String) (hinv : TagInv db) :
    ∃ db', add_tag_to_prompt db pid tag = .ok db' ∧
      TagInv db' ∧
      db'.prompts = db.prompts ∧
      (∀ s, s ∈ get_tags_for_prompt db' pid ↔ s ∈ get_tags_for_prompt db pid ∨ s = tag) := by
  obtain ⟨hnd, hbound, hlink⟩ := hinv
  by_cases hex : db.tags.any (fun t => t.name == tag) = true
  · obtain ⟨t0, ht0mem, ht0name⟩ := List.any_eq_true.mp hex
    cases hfind : db.tags.find? (fun t => t.name == tag) with
    | none => exact absurd ht0name (by simpa using List.find?_eq_none.mp hfind t0 ht0mem)
    | some t =>
      have htname : t.name = tag := by simpa using List.find?_some hfind
      have htmem : t ∈ db.tags := List.mem_of_find?_eq_some hfind
      by_cases hl : db.prompt_tags.any (fun l => l.1 == pid && l.2 == t.id) = true
      · have heq : add_tag_to_prompt db pid tag = .ok db := by
          unfold add_tag_to_prompt
          rw [if_pos hex]
          simp only [hfind, hl, if_true]
        refine ⟨db, heq, ⟨hnd, hbound, hlink⟩, rfl, fun s => ⟨fun hs => Or.inl hs, ?_⟩⟩
        rintro (hs | rfl)
        · exact hs
        · obtain ⟨l0, hl0mem, hl0⟩ := List.any_eq_true.mp hl
          rw [Bool.and_eq_true] at hl0
          apply List.mem_filterMap.mpr
          refine ⟨l0, List.mem_filter.mpr ⟨hl0mem, hl0.1⟩, ?_⟩
          have h2 : l0.2 = t.id := by simpa using hl0.2
          rw [h2, find?_id_eq_self hnd htmem]
          simp [htname]
      · have heq : add_tag_to_prompt db pid tag =
            .ok { db with prompt_tags := db.prompt_tags ++ [(pid, t.id)] } := by
          unfold add_tag_to_prompt
          rw [if_pos hex]
          simp only [hfind, hl, if_false, Bool.false_eq_true]
        refine ⟨_, heq, ⟨hnd, hbound, ?_⟩, rfl, ?_⟩
        · intro l hlmem
          rcases List.mem_append.mp hlmem with hmem | hmem
          · exact hlink l hmem
          · rw [List.mem_singleton.mp hmem]
            exact hbound t htmem
        · intro s
          rw [get_tags_append_link db pid t hnd htmem]
          rw [htname]
          simp only [List.mem_append, List.mem_singleton]
  · have hexf : ∀ t ∈ db.tags, ¬(t.name == tag) = true := by
      intro t ht hc
      exact hex (List.any_eq_true.mpr ⟨t, ht, hc⟩)
    have hnone : db.tags.find? (fun t => t.name == tag) = none :=
      List.find?_eq_none.mpr hexf
    have hfind1 : (db.tags ++ [TagRow.mk db.next_tag_id tag]).find? (fun t => t.name == tag) =
        some (TagRow.mk db.next_tag_id tag) := by
      rw [find?_append_of_none hnone]
      simp [List.find?_cons]
    have hlinkany : db.prompt_tags.any (fun l => l.1 == pid && l.2 == db.next_tag_id) = false := by
      rw [List.any_eq_false]
      intro l hlmem hc
      rw [Bool.and_eq_true] at hc
      have h2 : l.2 = db.next_tag_id := by simpa using hc.2
      exact absurd h2 (Nat.ne_of_lt (hlink l hlmem))
    have heq : add_tag_to_prompt db pid tag =
        .ok { db with tags := db.tags ++ [TagRow.mk db.next_tag_id tag],
                      next_tag_id := db.next_tag_id + 1,
                      prompt_tags := db.prompt_tags ++ [(pid, db.next_tag_id)] } := by
      unfold add_tag_to_prompt
      rw [if_neg hex]
      simp only [hfind1, hlinkany, if_false, Bool.false_eq_true]
    refine ⟨_, heq, ?_, rfl, ?_⟩
    · refine ⟨?_, ?_, ?_⟩
      · show ((db.tags ++ [TagRow.mk db.next_tag_id tag]).map TagRow.id).Nodup
        rw [List.map_append, List.nodup_append]
        refine ⟨hnd, by simp, ?_⟩
        intro x hx
        simp only [List.map_cons, List.map_nil, List.mem_singleton]
        obtain ⟨u, hu, rfl⟩ := List.mem_map.mp hx
        exact fun he => absurd he (Nat.ne_of_lt (hbound u hu))
      · intro t ht
        rcases List.mem_append.mp ht with hmem | hmem
        · exact Nat.lt_succ_of_lt (hbound t hmem)
        · rw [List.mem_singleton.mp hmem]
          exact Nat.lt_succ_self _
      · intro l hlmem
        rcases List.mem_append.mp hlmem with hmem | hmem
        · exact Nat.lt_succ_of_lt (hlink l hmem)
        · rw [List.mem_singleton.mp hmem]
          exact Nat.lt_succ_self _
    · intro s
      have hret : get_tags_for_prompt { db with tags := db.tags ++ [TagRow.mk db.next_tag_id tag], next_tag_id := db.next_tag_id + 1, prompt_tags := db.prompt_tags ++ [(pid, db.next_tag_id)] } pid = get_tags_for_prompt db pid ++ [tag] := by
        unfold get_tags_for_prompt
        show ((db.prompt_tags ++ [(pid, db.next_tag_id)]).filter _).filterMap _ = _
        rw [List.filter_append, List.filterMap_append]
        congr 1
        · apply List.filterMap_congr
          intro l hlmem
          have hl2 : l.2 < db.next_tag_id := hlink l (List.mem_of_mem_filter hlmem)
          cases hf : db.tags.find? (fun t => t.id == l.2) with
          | some u => rw [find?_append_of_some hf]
          | none =>
              rw [find?_append_of_none hf]
              simp [List.find?_cons, Nat.ne_of_gt hl2]
        · have hfnone : db.tags.find? (fun t => t.id == db.next_tag_id) = none := by
            rw [List.find?_eq_none]
            intro t' ht'
            simp only [beq_iff_eq]
            exact Nat.ne_of_lt (hbound t' ht')
          simp [List.filter_cons, List.filterMap_cons, find?_append_of_none hfnone,
            List.find?_cons, hfnone, Option.or]
      rw [hret]
      simp only [List.mem_append, List.mem_singleton]

theorem addTagsLoop_spec (pid : String) (ts : List String) :
    ∀ db : DB, TagInv db →
    ∃ db', addTagsLoop db pid ts = .ok db' ∧
      TagInv db' ∧
      db'.prompts = db.prompts ∧
      (∀ s, s ∈ get_tags_for_prompt db' pid ↔ s ∈ get_tags_for_prompt db pid ∨ s ∈ ts) := by
  induction ts with
  | nil =>
      intro db hinv
      exact ⟨db, rfl, hinv, rfl, by simp⟩
  | cons t ts ih =>
      intro db hinv
      obtain ⟨db1, he1, hinv1, hp1, hiff1⟩ := add_tag_spec db pid t hinv
      obtain ⟨db2, he2, hinv2, hp2, hiff2⟩ := ih db1 hinv1
      refine ⟨db2, ?_, hinv2, hp2.trans hp1, ?_⟩
      · unfold addTagsLoop
        rw [he1]
        exact he2
      · intro s
        rw [hiff2 s, hiff1 s]
        simp only [List.mem_cons]
        tauto

/-- C1: for every valid prompt successfully inserted into a well-formed
store, `get_prompt` on its id returns a prompt whose content, category,
tag set (as an unordered set) and metadata all equal the inserted
prompt's. -/
theorem create_then_get_roundtrip (db : DB) (p : Prompt)
    (hwf : DBWellFormed db) (hv : ValidPrompt p)
    (hfresh : ∀ r ∈ db.prompts, r.id ≠ p.id) :
    (createThenGet db p).map Prompt.content = some p.content ∧
    (createThenGet db p).map Prompt.category = some p.category ∧
    (createThenGet db p).map (fun q => q.tags.toFinset) = some p.tags.toFinset ∧
    (createThenGet db p).map Prompt.metadata = some p.metadata := by
  obtain ⟨hinv, hri⟩ := hwf
  have hany : db.prompts.any (fun r => r.id == p.id) = false := by
    rw [List.any_eq_false]
    intro r hr
    simpa using hfresh r hr
  have hinv0 : TagInv { db with prompts := db.prompts ++ [promptToRow p] } := hinv
  obtain ⟨db', he, hinv', hp', hiff⟩ :=
    addTagsLoop_spec p.id p.tags { db with prompts := db.prompts ++ [promptToRow p] } hinv0
  have hcreate : create_prompt db p = .ok db' := by
    unfold create_prompt
    rw [hany]
    simpa using he
  have hnone : db.prompts.find? (fun r => r.id == p.id) = none := by
    rw [List.find?_eq_none]
    intro r hr
    simpa using hfresh r hr
  have hfind : db'.prompts.find? (fun r => r.id == p.id) = some (promptToRow p) := by
    rw [hp']
    show (db.prompts ++ [promptToRow p]).find? _ = _
    rw [find?_append_of_none hnone]
    simp [List.find?_cons, promptToRow]
  have hget : get_prompt db' p.id =
      some (rowToPrompt (promptToRow p) (get_tags_for_prompt db' p.id)) := by
    unfold get_prompt
    rw [hfind]
    rfl
  have hempty : get_tags_for_prompt { db with prompts := db.prompts ++ [promptToRow p] } p.id = [] := by
    unfold get_tags_for_prompt
    show (db.prompt_tags.filter _).filterMap _ = _
    have hfil : db.prompt_tags.filter (fun l => l.1 == p.id) = [] := by
      rw [List.filter_eq_nil_iff]
      intro l hl
      simp only [beq_iff_eq]
      intro hlp
      obtain ⟨r, hr, hrid⟩ := hri l hl
      exact hfresh r hr (by rw [hrid, hlp])
    rw [hfil]
    rfl
  have htags : ∀ s, s ∈ get_tags_for_prompt db' p.id ↔ s ∈ p.tags := by
    intro s
    rw [hiff s, hempty]
    simp
  have hfst : (get_tags_for_prompt db' p.id).toFinset = p.tags.toFinset := by
    apply Finset.ext
    intro a
    rw [List.mem_toFinset, List.mem_toFinset, htags a]
  have hexec : (p.metadata.execution_time_ms.map toSigned64).map toUnsigned64 =
      p.metadata.execution_time_ms := by
    unfold ValidPrompt at hv
    cases hm : p.metadata.execution_time_ms with
    | none => rfl
    | some v =>
        rw [hm] at hv
        show some (toUnsigned64 (toSigned64 v)) = some v
        rw [toUnsigned64_toSigned64 v hv]
  have hcg : createThenGet db p =
      some (rowToPrompt (promptToRow p) (get_tags_for_prompt db' p.id)) := by
    unfold createThenGet
    rw [hcreate]
    exact hget
  refine ⟨?_, ?_, ?_, ?_⟩
  · rw [hcg]; rfl
  · rw [hcg]; rfl
  · rw [hcg]
    show some ((get_tags_for_prompt db' p.id).toFinset) = some p.tags.toFinset
    rw [hfst]
  · rw [hcg]
    show some (PromptMetadata.mk p.metadata.model p.metadata.input_tokens p.metadata.output_tokens ((p.metadata.execution_time_ms.map toSigned64).map toUnsigned64) p.metadata.estimated_cost p.metadata.context) = some p.metadata
    rw [hexec]

/-- Witness for C1: the round trip at a concrete prompt on the fresh
store. -/
theorem create_then_get_roundtrip_witness :
    DBWellFormed emptyDB ∧ ValidPrompt samplePrompt ∧
    (∀ r ∈ emptyDB.prompts, r.id ≠ samplePrompt.id) ∧
    ((createThenGet emptyDB samplePrompt).map Prompt.content = some samplePrompt.content ∧
      (createThenGet emptyDB samplePrompt).map Prompt.category = some samplePrompt.category ∧
      (createThenGet emptyDB samplePrompt).map (fun q => q.tags.toFinset) =
        some samplePrompt.tags.toFinset ∧
      (createThenGet emptyDB samplePrompt).map Prompt.metadata = some samplePrompt.metadata) :=
  ⟨by unfold DBWellFormed TagInv; decide, by show (3 : Nat) < 2 ^ 64; decide, by decide,
    create_then_get_roundtrip emptyDB samplePrompt
      (by unfold DBWellFormed TagInv; decide) (by show (3 : Nat) < 2 ^ 64; decide) (by decide)⟩

theorem mem_list_prompts (db : DB) (f : PromptFilter) (q : Prompt)
    (h : q ∈ list_prompts db f) :
    ∃ r ∈ db.prompts, q = rowToPrompt r (get_tags_for_prompt db r.id) := by
  unfold list_prompts at h
  obtain ⟨r, hr, rfl⟩ := List.mem_map.mp h
  refine ⟨r, ?_, rfl⟩
  have hr2 : r ∈ sortByB (fun a b => dtLeB b.created_at a.created_at)
      ((db.prompts.filter (listRowMatches db f)).dedup) := by
    rcases hlim : f.limit with _ | l <;> rcases hoff : f.offset with _ | o <;>
      rw [hlim, hoff] at hr <;> dsimp only at hr
    · exact hr
    · exact List.drop_subset _ _ hr
    · exact List.take_subset _ _ hr
    · exact List.drop_subset _ _ (List.take_subset _ _ hr)
  have hr3 := (mem_sortByB _ _ _).mp hr2
  have hr4 := List.mem_dedup.mp hr3
  exact List.mem_of_mem_filter hr4

theorem find_by_hash_isSome_of_mem (db : DB) (r : PromptRow) (hr : r ∈ db.prompts) :
    (find_by_hash db r.content_hash).isSome = true := by
  unfold find_by_hash
  cases hf : db.prompts.find? (fun x => x.content_hash == r.content_hash) with
  | none =>
      exact absurd (beq_self_eq_true r.content_hash) (by simpa using List.find?_eq_none.mp hf r hr)
  | some u => rfl

theorem importPromptsLoop_skips (ps : List Prompt) : ∀ (db : DB) (k : Nat),
    (∀ p ∈ ps, (find_by_hash db p.content_hash).isSome = true) →
    importPromptsLoop db k ps = .ok (db, k) := by
  induction ps with
  | nil => intro db k _; rfl
  | cons p ps ih =>
      intro db k hall
      unfold importPromptsLoop
      rw [if_pos (hall p (List.mem_cons_self p ps))]
      exact ih db k (fun p' hp' => hall p' (List.mem_cons_of_mem p hp'))

theorem importScoresLoop_prompts (ss : List QualityScore) : ∀ db : DB,
    (importScoresLoop db ss).prompts = db.prompts := by
  induction ss with
  | nil => intro db; rfl
  | cons s ss ih => intro db; exact ih (save_quality_score db s)

theorem importMetricsLoop_prompts (ms : List EfficiencyMetrics) : ∀ db : DB,
    (importMetricsLoop db ms).prompts = db.prompts := by
  induction ms with
  | nil => intro db; rfl
  | cons m ms ih => intro db; exact ih (save_efficiency_metrics db m)

/-- C8: importing the document exported from a store back into that same
unmodified store imports exactly 0 prompts and leaves the prompt rows
unchanged (every exported prompt's content hash is already present, so
each is skipped). -/
theorem reimport_export_counts_zero (db : DB) (now : DateTimeUtc) :
    (import_from_json db (export_to_json db now)).map (fun r => (r.1.prompts, r.2)) =
      .ok (db.prompts, 0) := by
  have hall : ∀ p ∈ (export_to_json db now).prompts,
      (find_by_hash db p.content_hash).isSome = true := by
    intro p hp
    obtain ⟨r, hr, rfl⟩ := mem_list_prompts db promptFilterDefault p hp
    exact find_by_hash_isSome_of_mem db r hr
  unfold import_from_json
  rw [importPromptsLoop_skips (export_to_json db now).prompts db 0 hall]
  simp [Except.map, importMetricsLoop_prompts, importScoresLoop_prompts]
